import Mathlib

/-!
Verification of the `edwards25519sha512batch` signature wrapper: the key
material model, keypair generation, signing, verification and the secret-key
destructor, over an opaque model of the underlying primitive library.
-/

namespace Edwards25519

/-- Byte strings are modelled as lists of naturals, one entry per byte. -/
abbrev Bytes := List Nat

/-- Number of bytes in a secret key (source constant `SECRETKEYBYTES`). -/
def SECRETKEYBYTES : Nat := 64

/-- Number of bytes in a public key (source constant `PUBLICKEYBYTES`). -/
def PUBLICKEYBYTES : Nat := 32

/-- Number of signature bytes a signed message adds over the plain message
(source constant `SIGNATUREBYTES`). -/
def SIGNATUREBYTES : Nat := 64

/-- SecretKey wraps its 64 backing bytes (source `struct SecretKey`). -/
structure SecretKey where
  bytes : Bytes

/-- PublicKey wraps its 32 backing bytes (source `struct PublicKey`). -/
structure PublicKey where
  bytes : Bytes

/-- Modelled from the spec: the external primitive library (the three
`crypto_sign_edwards25519sha512batch` routines are only declared in the
source, their bodies live in the foreign library).  One instance fixes one
behaviour of the library.  `keypairPk` / `keypairSk` are the contents the
keypair routine leaves in the two caller-provided buffers and `keypairRet` is
its status.  `signImpl sk m` returns the status, the contents left in the
signed-message buffer (allocated by the caller with `m.length + 64` bytes)
and the length written back through `smlen`.  `openImpl pk sm` returns the
status, the contents left in the message buffer (allocated with `sm.length`
bytes) and the length written back through `mlen`.  The two length fields
record that each routine writes only inside the buffer handed to it. -/
structure SignPrimitive where
  keypairRet : Int
  keypairPk : Bytes
  keypairSk : Bytes
  signImpl : Bytes → Bytes → Int × Bytes × Nat
  openImpl : Bytes → Bytes → Int × Bytes × Nat
  signImplLen : ∀ sk m, ((signImpl sk m).2.1).length = m.length + SIGNATUREBYTES
  openImplLen : ∀ pk sm, ((openImpl pk sm).2.1).length = sm.length

/-- Embedding of `gen_keypair`: two zeroed buffers are allocated, the
primitive keypair routine fills them, and whatever they then hold is wrapped
into `PublicKey` and `SecretKey`.  The routine's status (`keypairRet`) is
never inspected, faithful to the source. -/
def gen_keypair (p : SignPrimitive) : PublicKey × SecretKey :=
  (PublicKey.mk p.keypairPk, SecretKey.mk p.keypairSk)

/-- Embedding of `sign`: a buffer of `m.length + SIGNATUREBYTES` zero bytes is
allocated, the primitive fills it and reports `smlen`, and the buffer is
truncated to `smlen`.  `Vec::truncate` keeps the first `smlen` elements and is
a no-op when `smlen` is at least the length, which is exactly `List.take`.
The primitive's status is never inspected, faithful to the source. -/
def sign (p : SignPrimitive) (m : Bytes) (sk : SecretKey) : Bytes :=
  let r := p.signImpl sk.bytes m
  r.2.1.take r.2.2

/-- Embedding of `verify`: a buffer of `sm.length` zero bytes is allocated,
the primitive fills it and reports `mlen`; on zero status the buffer is
truncated to `mlen` and returned in `some`, otherwise the result is `none`. -/
def verify (p : SignPrimitive) (sm : Bytes) (pk : PublicKey) : Option Bytes :=
  let r := p.openImpl pk.bytes sm
  if r.1 = 0 then some (r.2.1.take r.2.2) else none

/-- Embedding of the `Drop` impl for `SecretKey`: the destructor body iterates
over the backing buffer and overwrites every byte with zero; the result is the
buffer contents after the destructor body ran. -/
def SecretKey.drop (sk : SecretKey) : SecretKey :=
  SecretKey.mk (sk.bytes.map fun _ => 0)

/-- Locals of the `sign` body: the parameters `m` and `sk`, passed to the
foreign routine through read-only pointers, and the two locals it may write
through mutable pointers (`sm` and `smlen`). -/
structure SignState where
  m : Bytes
  sk : Bytes
  sm : Bytes
  smlen : Nat

/-- The `sign` body as a state transformer over its locals: only `sm` and
`smlen` (the mutable-pointer arguments of the foreign call) are ever
assigned. -/
def signRun (p : SignPrimitive) (m : Bytes) (sk : Bytes) : SignState :=
  let s0 : SignState := ⟨m, sk, List.replicate (m.length + SIGNATUREBYTES) 0, 0⟩
  let r := p.signImpl s0.sk s0.m
  let s1 : SignState := { s0 with sm := r.2.1, smlen := r.2.2 }
  { s1 with sm := s1.sm.take s1.smlen }

/-- Locals of the `verify` body: the parameters `sm` and `pk`, passed to the
foreign routine through read-only pointers, the two locals it may write
through mutable pointers (`mbuf` and `mlen`), and the returned value. -/
structure VerifyState where
  sm : Bytes
  pk : Bytes
  mbuf : Bytes
  mlen : Nat
  ret : Option Bytes

/-- The `verify` body as a state transformer over its locals: only `mbuf`,
`mlen` and the returned value are ever assigned. -/
def verifyRun (p : SignPrimitive) (sm : Bytes) (pk : Bytes) : VerifyState :=
  let s0 : VerifyState := ⟨sm, pk, List.replicate sm.length 0, 0, none⟩
  let r := p.openImpl s0.pk s0.sm
  let s1 : VerifyState := { s0 with mbuf := r.2.1, mlen := r.2.2 }
  if r.1 = 0 then
    let s2 : VerifyState := { s1 with mbuf := s1.mbuf.take s1.mlen }
    { s2 with ret := some s2.mbuf }
  else
    { s1 with ret := none }

/-- Flip the single bit at bit position `i` of a byte string: bit `i % 8` of
byte `i / 8`.  Positions beyond the end leave the string unchanged. -/
def flipBit : Bytes → Nat → Bytes
  | [], _ => []
  | b :: bs, i => if i < 8 then (b ^^^ (1 <<< i)) :: bs else b :: flipBit bs (i - 8)

/-- Checksum tag used by the executable toy instance of the primitive model:
64 equal bytes derived from a key summary and the message bytes. -/
def toyTag (k : Nat) (m : Bytes) : Bytes :=
  List.replicate 64 ((k + m.sum) % 256)

/-- Executable toy instance of the primitive model, used by the witnesses:
signing prepends a 64-byte checksum tag to the message, opening recomputes the
tag from the public key and checks it. -/
def modelPrim : SignPrimitive where
  keypairRet := 0
  keypairPk := List.replicate PUBLICKEYBYTES 7
  keypairSk := List.replicate SECRETKEYBYTES 7
  signImpl := fun sk m => (0, toyTag sk.sum m ++ m, m.length + SIGNATUREBYTES)
  openImpl := fun pk sm =>
    if 64 ≤ sm.length ∧ sm.take 64 = toyTag (2 * pk.sum) (sm.drop 64) then
      (0, sm.drop 64 ++ List.replicate 64 0, sm.length - 64)
    else
      (1, List.replicate sm.length 0, 0)
  signImplLen := by
    intro sk m
    simp [toyTag, SIGNATUREBYTES]
  openImplLen := by
    intro pk sm
    dsimp only
    split
    · rename_i h
      simp only [List.length_append, List.length_drop, List.length_replicate]
      omega
    · simp

/-- Instance of the primitive model in which both the keypair routine and the
signing routine report failure (status `-1`) and leave their buffers zeroed
and the written-back lengths at their initial value 0. -/
def failingPrim : SignPrimitive where
  keypairRet := -1
  keypairPk := List.replicate PUBLICKEYBYTES 0
  keypairSk := List.replicate SECRETKEYBYTES 0
  signImpl := fun _ m => (-1, List.replicate (m.length + SIGNATUREBYTES) 0, 0)
  openImpl := fun _ sm => (-1, List.replicate sm.length 0, 0)
  signImplLen := by intro sk m; simp
  openImplLen := by intro pk sm; simp

/-- Helper: whenever the primitive's open routine accepts `sm` and its buffer
truncated to the reported length is `m`, `verify` returns `some m`. -/
theorem verify_accepts (p : SignPrimitive) (sm : Bytes) (pk : PublicKey) (m : Bytes)
    (hacc : (p.openImpl pk.bytes sm).1 = 0)
    (hout : (p.openImpl pk.bytes sm).2.1.take (p.openImpl pk.bytes sm).2.2 = m) :
    verify p sm pk = some m := by
  simp [verify, hacc, hout]

/-- Helper: flipping the same bit twice restores the byte string. -/
theorem flipBit_flipBit (bs : Bytes) (i : Nat) : flipBit (flipBit bs i) i = bs := by
  induction bs generalizing i with
  | nil => rfl
  | cons b bs ih =>
    by_cases h : i < 8
    · simp [flipBit, h, Nat.xor_assoc]
    · simp [flipBit, h, ih]

/-- C1: whenever the primitive's open routine accepts the signed message
produced for `m` under the generated keypair and extracts `m` back from it
(the primitive's contract for a matching keypair), `verify` applied to
`sign m sk` together with the paired public key returns `some m`,
byte-for-byte identical to the input. -/
theorem sign_verify_roundtrip (p : SignPrimitive) (m : Bytes)
    (hacc : (p.openImpl p.keypairPk (sign p m (gen_keypair p).2)).1 = 0)
    (hout : (p.openImpl p.keypairPk (sign p m (gen_keypair p).2)).2.1.take
        (p.openImpl p.keypairPk (sign p m (gen_keypair p).2)).2.2 = m) :
    verify p (sign p m (gen_keypair p).2) (gen_keypair p).1 = some m :=
  verify_accepts p _ _ m hacc hout

/-- Witness for C1 at the toy primitive and the message `[3, 5]`. -/
theorem sign_verify_roundtrip_witness :
    verify modelPrim (sign modelPrim [3, 5] (gen_keypair modelPrim).2)
      (gen_keypair modelPrim).1 = some [3, 5] :=
  sign_verify_roundtrip modelPrim [3, 5] (by decide) (by decide)

/-- C2: running the SecretKey destructor body turns the backing buffer into
64 zero bytes: every byte of the storage is overwritten with zero. -/
theorem secretKey_drop_zeroizes (sk : SecretKey)
    (h : sk.bytes.length = SECRETKEYBYTES) :
    (SecretKey.drop sk).bytes = List.replicate SECRETKEYBYTES 0 := by
  simp [SecretKey.drop, List.map_const', h]

/-- Witness for C2 at a concrete 64-byte secret key. -/
theorem secretKey_drop_zeroizes_witness :
    (SecretKey.mk (List.replicate 64 9)).bytes.length = SECRETKEYBYTES ∧
    (SecretKey.drop (SecretKey.mk (List.replicate 64 9))).bytes =
      List.replicate SECRETKEYBYTES 0 :=
  ⟨by decide, secretKey_drop_zeroizes (SecretKey.mk (List.replicate 64 9)) (by decide)⟩

/-- C3: the code never inspects the keypair routine's status.  With the
primitive instance whose keypair routine returns status `-1` and leaves the
buffers zeroed, `gen_keypair` still returns the degenerate all-zero key
material; its return type `PublicKey × SecretKey` has no error channel at
all. -/
theorem gen_keypair_ignores_failure :
    failingPrim.keypairRet = -1 ∧
    gen_keypair failingPrim =
      (PublicKey.mk (List.replicate PUBLICKEYBYTES 0),
        SecretKey.mk (List.replicate SECRETKEYBYTES 0)) :=
  ⟨rfl, rfl⟩

/-- C4: the code never inspects the signing routine's status.  With the
primitive instance whose signing routine returns status `-1` and leaves the
written-back length at 0, `sign` returns the zero-length byte string instead
of an error; its return type is a plain byte string with no error channel. -/
theorem sign_ignores_failure :
    (failingPrim.signImpl (List.replicate SECRETKEYBYTES 7) [1, 2, 3]).1 = -1 ∧
    sign failingPrim [1, 2, 3] (SecretKey.mk (List.replicate SECRETKEYBYTES 7)) = [] :=
  ⟨rfl, rfl⟩

/-- C5: whenever the primitive writes back `smlen = m.length + 64` (its
contract), the signed message returned by `sign` has length exactly
`m.length + 64`: the truncation hits a buffer of exactly that size. -/
theorem sign_length (p : SignPrimitive) (m : Bytes) (sk : SecretKey)
    (hlen : (p.signImpl sk.bytes m).2.2 = m.length + SIGNATUREBYTES) :
    (sign p m sk).length = m.length + SIGNATUREBYTES := by
  simp [sign, List.length_take, hlen, p.signImplLen sk.bytes m]

/-- Witness for C5 at the toy primitive and the message `[9]`. -/
theorem sign_length_witness :
    (sign modelPrim [9] (SecretKey.mk (List.replicate 64 7))).length =
      [9].length + SIGNATUREBYTES :=
  sign_length modelPrim [9] (SecretKey.mk (List.replicate 64 7)) (by decide)

/-- C6: whenever the primitive's open routine accepts `sm` and writes back
`mlen = sm.length - 64` (its contract on success), `verify` succeeds and the
returned message has length exactly `sm.length - 64`. -/
theorem verify_success_length (p : SignPrimitive) (sm : Bytes) (pk : PublicKey)
    (hacc : (p.openImpl pk.bytes sm).1 = 0)
    (hlen : (p.openImpl pk.bytes sm).2.2 = sm.length - SIGNATUREBYTES) :
    (verify p sm pk).isSome = true ∧
    ((verify p sm pk).getD []).length = sm.length - SIGNATUREBYTES := by
  have hbuf := p.openImplLen pk.bytes sm
  constructor
  · simp [verify, hacc]
  · simp [verify, hacc, List.length_take, hlen, hbuf]

/-- Witness for C6 at the toy primitive and a 66-byte signed message. -/
theorem verify_success_length_witness :
    (verify modelPrim (sign modelPrim [1, 2] (gen_keypair modelPrim).2)
      (gen_keypair modelPrim).1).isSome = true ∧
    ((verify modelPrim (sign modelPrim [1, 2] (gen_keypair modelPrim).2)
      (gen_keypair modelPrim).1).getD []).length =
      (sign modelPrim [1, 2] (gen_keypair modelPrim).2).length - SIGNATUREBYTES :=
  verify_success_length modelPrim (sign modelPrim [1, 2] (gen_keypair modelPrim).2)
    (gen_keypair modelPrim).1 (by decide) (by decide)

/-- C7: an input shorter than 64 bytes is rejected by the primitive's open
routine with a nonzero status (its contract for impossible inputs), and
`verify` then returns `none` — the same single failure outcome as every other
rejection, since `none` is the only failure value `verify` can produce; the
wrapper itself merely allocates `sm.length` bytes and branches on the status,
so it is total on short input. -/
theorem verify_short_input (p : SignPrimitive) (sm : Bytes) (pk : PublicKey)
    (_hshort : sm.length < SIGNATUREBYTES)
    (hrej : (p.openImpl pk.bytes sm).1 ≠ 0) :
    verify p sm pk = none := by
  simp [verify, hrej]

/-- Witness for C7 at the toy primitive and a 3-byte input. -/
theorem verify_short_input_witness :
    verify modelPrim [1, 2, 3] (gen_keypair modelPrim).1 = none :=
  verify_short_input modelPrim [1, 2, 3] (gen_keypair modelPrim).1
    (by decide) (by decide)

/-- C8: flipping a single bit of the signed message makes `verify` fail (the
primitive rejects the tampered blob, its contract), and flipping the same bit
back restores the bytes exactly, and with them successful verification. -/
theorem tamper_sensitivity (p : SignPrimitive) (m : Bytes) (i : Nat)
    (hrej : (p.openImpl p.keypairPk (flipBit (sign p m (gen_keypair p).2) i)).1 ≠ 0)
    (hacc : (p.openImpl p.keypairPk (sign p m (gen_keypair p).2)).1 = 0)
    (hout : (p.openImpl p.keypairPk (sign p m (gen_keypair p).2)).2.1.take
        (p.openImpl p.keypairPk (sign p m (gen_keypair p).2)).2.2 = m) :
    verify p (flipBit (sign p m (gen_keypair p).2) i) (gen_keypair p).1 = none ∧
    verify p (flipBit (flipBit (sign p m (gen_keypair p).2) i) i)
      (gen_keypair p).1 = some m := by
  constructor
  · have hpk : (gen_keypair p).1.bytes = p.keypairPk := rfl
    simp [verify, hpk, hrej]
  · rw [flipBit_flipBit]
    exact verify_accepts p _ _ m hacc hout

/-- Witness for C8 at the toy primitive, the message `[5]` and bit position 3. -/
theorem tamper_sensitivity_witness :
    verify modelPrim (flipBit (sign modelPrim [5] (gen_keypair modelPrim).2) 3)
      (gen_keypair modelPrim).1 = none ∧
    verify modelPrim
      (flipBit (flipBit (sign modelPrim [5] (gen_keypair modelPrim).2) 3) 3)
      (gen_keypair modelPrim).1 = some [5] :=
  tamper_sensitivity modelPrim [5] 3 (by decide) (by decide) (by decide)

/-- C9: the `sign` and `verify` bodies never assign to their message and key
arguments: in the state transformer embedding, whose assignable fields are
exactly the locals the foreign routine receives through mutable pointers, the
`m` and `sk` fields after `sign` and the `sm` and `pk` fields after `verify`
equal the inputs byte for byte. -/
theorem sign_verify_no_mutation (p : SignPrimitive) (m sk sm pk : Bytes) :
    ((signRun p m sk).m = m ∧ (signRun p m sk).sk = sk) ∧
    ((verifyRun p sm pk).sm = sm ∧ (verifyRun p sm pk).pk = pk) := by
  refine ⟨⟨rfl, rfl⟩, ?_⟩
  unfold verifyRun
  dsimp only
  split <;> exact ⟨rfl, rfl⟩

/-- Coherence: the `sm` local at the end of the `sign` state transformer is
the value the functional embedding of `sign` returns. -/
theorem signRun_sm (p : SignPrimitive) (m sk : Bytes) :
    (signRun p m sk).sm = sign p m (SecretKey.mk sk) := rfl

/-- Coherence: the returned value at the end of the `verify` state
transformer is the value the functional embedding of `verify` returns. -/
theorem verifyRun_ret (p : SignPrimitive) (sm pk : Bytes) :
    (verifyRun p sm pk).ret = verify p sm (PublicKey.mk pk) := by
  unfold verifyRun verify
  dsimp only
  split <;> simp_all

/-- C10: whatever length the primitive writes back, `sign`'s result never
exceeds `m.length + 64` bytes and a successful `verify` result never exceeds
`sm.length` bytes, because each function truncates to the reported length
within a buffer it allocated at that size and truncating to a larger length
is a no-op. -/
theorem output_length_bounded (p : SignPrimitive) (m sm : Bytes)
    (sk : SecretKey) (pk : PublicKey) :
    (sign p m sk).length ≤ m.length + SIGNATUREBYTES ∧
    ((verify p sm pk).getD []).length ≤ sm.length := by
  constructor
  · have h := p.signImplLen sk.bytes m
    simp [sign, List.length_take]
    omega
  · have h := p.openImplLen pk.bytes sm
    unfold verify
    dsimp only
    split
    · simp [List.length_take]
      omega
    · simp

end Edwards25519
